import Mathlib

/-!
Verification of the context/data model and persistence contract of the
multi-counter application (`multi_counter/main.py`).

The embedding mirrors `CounterApp`:
* `Record` is the per-context value `{"counters": ..., "note": ...}`.  Python
  stores these as dicts whose keys may be missing (e.g. a dict loaded from a
  save file that lacks `"note"`); the two fields are therefore `Option`s.
* `CtxVal` is the shape of one entry of the persisted `"contexts"` object:
  a JSON array of integers (legacy format, the `isinstance(context_data, list)`
  branch), a JSON object (`isinstance(context_data, dict)` branch), or
  anything else (ignored by the migration loop).
* `PFile` is the persisted file as seen by `load_all_data`: absent
  (`os.path.exists` false), unreadable (`json.load` or a subsequent access
  raises, the `except` branch), or a well-formed document with optional
  `"__last_active__"` and `"contexts"` keys (`data.get`).
* Python `dict` operations (insertion-ordered, unique keys) are embedded as
  association-list operations `dictGet` / `dictSet` / `dictPop` / `dictMem`:
  assignment updates in place or appends, `pop` removes the entry.
* `AppState` carries the store (`all_contexts_data`, `current_context_name`)
  together with the displayed widgets: the three `Counter` `IntVar`s
  (`display1..display3`) and the note `Text` widget (`displayNote`).
* Operations that can raise an uncaught exception (`IndexError` in
  `update_ui_for_context`, `KeyError` from `dict.pop`) return `Option`,
  with `none` for the exception.
-/

namespace MultiCounter

/-- A context record `{"counters": [...], "note": "..."}`; fields are
optional because a dict kept as-is by the migration may lack either key. -/
structure Record where
  counters : Option (List Int)
  note : Option String
deriving DecidableEq

/-- One value of the persisted `"contexts"` object. -/
inductive CtxVal where
  | vlist : List Int → CtxVal
  | vdict : Record → CtxVal
  | vother : CtxVal
deriving DecidableEq

/-- The persisted file as observed by `load_all_data`. -/
inductive PFile where
  | missing : PFile
  | malformed : PFile
  | doc : Option String → Option (List (String × CtxVal)) → PFile

/-- Python `d.get(key)` on an insertion-ordered dict (unique keys in any
dict Python builds; the embedding returns the first matching entry). -/
def dictGet {α : Type} : List (String × α) → String → Option α
  | [], _ => none
  | (k, v) :: rest, key => if k = key then some v else dictGet rest key

/-- Python `key in d`. -/
def dictMem {α : Type} (d : List (String × α)) (key : String) : Bool :=
  (dictGet d key).isSome

/-- Python `d[key] = v`: update in place if present, else append. -/
def dictSet {α : Type} : List (String × α) → String → α → List (String × α)
  | [], key, v => [(key, v)]
  | (k, w) :: rest, key, v =>
    if k = key then (key, v) :: rest else (k, w) :: dictSet rest key v

/-- Python `d.pop(key)` (the removal part; absence is handled at call sites). -/
def dictPop {α : Type} : List (String × α) → String → List (String × α)
  | [], _ => []
  | (k, w) :: rest, key => if k = key then rest else (k, w) :: dictPop rest key

/-- `{"counters": [0, 0, 0], "note": ""}`. -/
def defaultRecord : Record := { counters := some [0, 0, 0], note := some "" }

/-- `default_data = {"Default": {"counters": [0, 0, 0], "note": ""}}`
as an in-memory mapping. -/
def default_data : List (String × Record) := [("Default", defaultRecord)]

/-- `default_data` in the on-disk entry shape (its records are dicts). -/
def default_data_doc : List (String × CtxVal) :=
  [("Default", CtxVal.vdict defaultRecord)]

/-- The migration loop of `load_all_data`: a list value is upgraded to
`{"counters": <list>, "note": ""}`, a dict value is kept as-is, anything
else is ignored. -/
def migrate : List (String × CtxVal) → List (String × Record)
  | [] => []
  | (n, CtxVal.vlist xs) :: rest =>
    (n, { counters := some xs, note := some "" }) :: migrate rest
  | (n, CtxVal.vdict r) :: rest => (n, r) :: migrate rest
  | (_, CtxVal.vother) :: rest => migrate rest

/-- The part of the application state `load_all_data` assigns. -/
structure Store where
  all_contexts_data : List (String × Record)
  current_context_name : String
deriving DecidableEq

/-- `CounterApp.load_all_data`. -/
def load_all_data : PFile → Store
  | PFile.missing =>
    { all_contexts_data := default_data, current_context_name := "Default" }
  | PFile.malformed =>
    { all_contexts_data := default_data, current_context_name := "Default" }
  | PFile.doc lastActive contexts =>
    let loaded_contexts := contexts.getD default_data_doc
    let migrated_contexts := migrate loaded_contexts
    let name := lastActive.getD "Default"
    { all_contexts_data := migrated_contexts,
      current_context_name :=
        if dictMem migrated_contexts name then name else "Default" }

/-- Full application state: the store plus the displayed widget values
(the three `Counter` `IntVar`s and the note `Text` widget). -/
structure AppState where
  all_contexts_data : List (String × Record)
  current_context_name : String
  display1 : Int
  display2 : Int
  display3 : Int
  displayNote : String
deriving DecidableEq

/-- `CounterApp.save_current_context_to_memory`: flush the displayed
counters and note into the record of the active context. -/
def save_current_context_to_memory (s : AppState) : AppState :=
  let current_values : List Int := [s.display1, s.display2, s.display3]
  let current_note := s.displayNote
  let context_data :=
    (dictGet s.all_contexts_data s.current_context_name).getD
      { counters := none, note := none }
  let context_data :=
    { context_data with counters := some current_values, note := some current_note }
  { s with
      all_contexts_data :=
        dictSet s.all_contexts_data s.current_context_name context_data }

/-- `CounterApp.update_ui_for_context`: load the active record into the
display.  `values[i]` for the three counters raises `IndexError` when the
counters list has fewer than three elements (`none`). -/
def update_ui_for_context (s : AppState) : Option AppState :=
  let context_data :=
    (dictGet s.all_contexts_data s.current_context_name).getD
      { counters := some [0, 0, 0], note := some "" }
  let values := context_data.counters.getD [0, 0, 0]
  let note := context_data.note.getD ""
  match values with
  | v1 :: v2 :: v3 :: _ =>
    some { s with display1 := v1, display2 := v2, display3 := v3,
                  displayNote := note }
  | _ => none

/-- `CounterApp.on_context_changed`, with the combobox selection passed as
`new_context_name`. -/
def on_context_changed (s : AppState) (new_context_name : String) :
    Option AppState :=
  if new_context_name = s.current_context_name then some s
  else
    update_ui_for_context
      { save_current_context_to_memory s with
          current_context_name := new_context_name }

/-- `CounterApp.add_context`, with the `askstring` result passed as
`new_name` (`none` models the cancelled dialog). -/
def add_context (s : AppState) (new_name : Option String) : Option AppState :=
  match new_name with
  | none => some s
  | some name =>
    if name = "" then some s
    else if dictMem s.all_contexts_data name then some s
    else
      let freshRecord : Record := { counters := some [0, 0, 0], note := some "" }
      on_context_changed
        { s with all_contexts_data := dictSet s.all_contexts_data name freshRecord }
        name

/-- `CounterApp.rename_context`; `dict.pop` with no default raises
`KeyError` when the active name is absent (`none`). -/
def rename_context (s : AppState) (new_name : Option String) :
    Option AppState :=
  if s.current_context_name = "Default" then some s
  else
    match new_name with
    | none => some s
    | some name =>
      if name = "" ∨ name = s.current_context_name then some s
      else if dictMem s.all_contexts_data name then some s
      else
        match dictGet s.all_contexts_data s.current_context_name with
        | none => none
        | some data =>
          some { s with
              all_contexts_data :=
                dictSet (dictPop s.all_contexts_data s.current_context_name)
                  name data,
              current_context_name := name }

/-- `CounterApp.delete_context`, with the `askyesno` answer passed as
`confirmed`; `dict.pop` raises `KeyError` when the active name is absent. -/
def delete_context (s : AppState) (confirmed : Bool) : Option AppState :=
  if s.current_context_name = "Default" then some s
  else if confirmed then
    match dictGet s.all_contexts_data s.current_context_name with
    | none => none
    | some _ =>
      on_context_changed
        { s with all_contexts_data :=
            dictPop s.all_contexts_data s.current_context_name }
        "Default"
  else some s

/-- The in-memory mapping in the on-disk entry shape
(`json.dump` writes each record as a JSON object). -/
def serializeContexts (m : List (String × Record)) : List (String × CtxVal) :=
  m.map (fun nr => (nr.1, CtxVal.vdict nr.2))

/-- `CounterApp.save_all_data`: flush the display, then write
`{"__last_active__": ..., "contexts": ...}`.  Returns the mutated state
and the document written. -/
def save_all_data (s : AppState) : AppState × PFile :=
  let s1 := save_current_context_to_memory s
  (s1, PFile.doc (some s1.current_context_name)
        (some (serializeContexts s1.all_contexts_data)))

/-- The state right after `__init__` runs `load_all_data`: counters are
fresh `IntVar`s at 0 and the note widget is empty. -/
def initialState (st : Store) : AppState :=
  { all_contexts_data := st.all_contexts_data,
    current_context_name := st.current_context_name,
    display1 := 0, display2 := 0, display3 := 0, displayNote := "" }

/-- The invariant the code actually maintains: the active pointer names an
existing entry, or is the string `"Default"` (which need not exist). -/
def storeActiveOk (st : Store) : Prop :=
  dictMem st.all_contexts_data st.current_context_name = true ∨
    st.current_context_name = "Default"

/-- `storeActiveOk` for the full application state. -/
def appActiveOk (s : AppState) : Prop :=
  dictMem s.all_contexts_data s.current_context_name = true ∨
    s.current_context_name = "Default"

/-- The counters list `update_ui_for_context` reads for the active context
(after both `.get` fallbacks). -/
def displayedValues (s : AppState) : List Int :=
  ((dictGet s.all_contexts_data s.current_context_name).getD
    { counters := some [0, 0, 0], note := some "" }).counters.getD [0, 0, 0]

/-- The note string `update_ui_for_context` reads for the active context. -/
def displayedNote (s : AppState) : String :=
  ((dictGet s.all_contexts_data s.current_context_name).getD
    { counters := some [0, 0, 0], note := some "" }).note.getD ""

theorem dictGet_dictSet_self {α : Type} (m : List (String × α)) (k : String)
    (v : α) : dictGet (dictSet m k v) k = some v := by
  induction m with
  | nil => simp [dictGet, dictSet]
  | cons hd tl ih =>
    obtain ⟨k1, v1⟩ := hd
    by_cases h : k1 = k
    · simp [dictGet, dictSet, h]
    · simp [dictGet, dictSet, h, ih]

theorem dictGet_dictSet_ne {α : Type} (m : List (String × α)) (k k' : String)
    (v : α) (h : k' ≠ k) : dictGet (dictSet m k' v) k = dictGet m k := by
  induction m with
  | nil => simp [dictGet, dictSet, h]
  | cons hd tl ih =>
    obtain ⟨k1, v1⟩ := hd
    by_cases h1 : k1 = k'
    · simp [dictGet, dictSet, h1, h]
    · simp only [dictSet, if_neg h1]
      by_cases h2 : k1 = k <;> simp [dictGet, h2, ih]

theorem dictMem_dictSet_self {α : Type} (m : List (String × α)) (k : String)
    (v : α) : dictMem (dictSet m k v) k = true := by
  simp [dictMem, dictGet_dictSet_self]

theorem dictMem_dictSet_of_mem {α : Type} (m : List (String × α))
    (k k' : String) (v : α) (h : dictMem m k = true) :
    dictMem (dictSet m k' v) k = true := by
  by_cases hk : k' = k
  · subst hk; exact dictMem_dictSet_self m k' v
  · simpa [dictMem, dictGet_dictSet_ne m k k' v hk] using h

theorem dictGet_eq_none_of_not_mem {α : Type} (m : List (String × α))
    (k : String) (h : k ∉ m.map Prod.fst) : dictGet m k = none := by
  induction m with
  | nil => rfl
  | cons hd tl ih =>
    obtain ⟨k1, v1⟩ := hd
    simp only [List.map_cons, List.mem_cons] at h
    push_neg at h
    have hne : ¬ k1 = k := fun he => h.1 he.symm
    simp [dictGet, hne, ih h.2]

theorem dictGet_dictPop_self {α : Type} (m : List (String × α)) (k : String)
    (h : (m.map Prod.fst).Nodup) : dictGet (dictPop m k) k = none := by
  induction m with
  | nil => rfl
  | cons hd tl ih =>
    obtain ⟨k1, v1⟩ := hd
    simp only [List.map_cons, List.nodup_cons] at h
    by_cases h1 : k1 = k
    · subst h1
      simpa [dictPop] using dictGet_eq_none_of_not_mem tl k1 h.1
    · simp [dictPop, dictGet, h1, ih h.2]

theorem migrate_serializeContexts (m : List (String × Record)) :
    migrate (serializeContexts m) = m := by
  induction m with
  | nil => rfl
  | cons hd tl ih =>
    obtain ⟨k1, v1⟩ := hd
    simp [serializeContexts, migrate] at ih ⊢
    exact ih

theorem save_current_eq (s : AppState) :
    save_current_context_to_memory s =
      { s with all_contexts_data := dictSet s.all_contexts_data s.current_context_name ⟨some [s.display1, s.display2, s.display3], some s.displayNote⟩ } := by
  unfold save_current_context_to_memory
  cases dictGet s.all_contexts_data s.current_context_name <;> rfl

theorem update_ui_cases (s : AppState) :
    update_ui_for_context s =
      match displayedValues s with
      | v1 :: v2 :: v3 :: _ =>
        some { s with display1 := v1, display2 := v2, display3 := v3,
                      displayNote := displayedNote s }
      | _ => none := rfl

theorem update_ui_eq_some (s : AppState) (v1 v2 v3 : Int) (tl : List Int)
    (hv : displayedValues s = v1 :: v2 :: v3 :: tl) :
    update_ui_for_context s =
      some { s with display1 := v1, display2 := v2, display3 := v3,
                    displayNote := displayedNote s } := by
  rw [update_ui_cases, hv]

theorem update_ui_eq_none (s : AppState)
    (h : (displayedValues s).length < 3) : update_ui_for_context s = none := by
  rw [update_ui_cases]
  rcases hv : displayedValues s with _ | ⟨v1, _ | ⟨v2, _ | ⟨v3, tl⟩⟩⟩ <;>
    first
      | rfl
      | (exfalso; rw [hv] at h; simp at h; omega)

theorem update_ui_store (s t : AppState) (h : update_ui_for_context s = some t) :
    t.all_contexts_data = s.all_contexts_data ∧
      t.current_context_name = s.current_context_name := by
  rw [update_ui_cases] at h
  rcases hv : displayedValues s with _ | ⟨v1, _ | ⟨v2, _ | ⟨v3, tl⟩⟩⟩ <;>
    rw [hv] at h <;> simp at h <;> simp [← h]

theorem on_context_changed_self (s : AppState) :
    on_context_changed s s.current_context_name = some s := by
  simp [on_context_changed]

theorem on_context_changed_ne (s : AppState) (name : String)
    (h : name ≠ s.current_context_name) :
    on_context_changed s name =
      update_ui_for_context
        { save_current_context_to_memory s with
            current_context_name := name } := by
  simp [on_context_changed, h]

theorem dictSet_eq_of_get {α : Type} (m : List (String × α)) (k : String)
    (v : α) (h : dictGet m k = some v) : dictSet m k v = m := by
  induction m with
  | nil => simp [dictGet] at h
  | cons hd tl ih =>
    obtain ⟨k1, v1⟩ := hd
    by_cases h1 : k1 = k
    · subst h1
      simp [dictGet] at h
      simp [dictSet, h]
    · simp [dictGet, h1] at h
      simp [dictSet, h1, ih h]

theorem onChanged_activeOk (s : AppState) (name : String) (t : AppState)
    (hmem : dictMem s.all_contexts_data name = true)
    (h : on_context_changed s name = some t) : appActiveOk t := by
  by_cases hc : name = s.current_context_name
  · rw [hc, on_context_changed_self s] at h
    cases h
    exact Or.inl (hc ▸ hmem)
  · rw [on_context_changed_ne s name hc] at h
    obtain ⟨hd, hcur⟩ := update_ui_store _ _ h
    left
    rw [hd, hcur]
    simp only [save_current_eq]
    exact dictMem_dictSet_of_mem _ _ _ _ hmem

theorem onChanged_default_current (s t : AppState)
    (h : on_context_changed s "Default" = some t) :
    t.current_context_name = "Default" := by
  by_cases hc : ("Default" : String) = s.current_context_name
  · rw [hc, on_context_changed_self s] at h
    cases h
    exact hc.symm
  · rw [on_context_changed_ne s _ hc] at h
    exact (update_ui_store _ _ h).2

/-- Claim C2, amended: after `load()` the active pointer names an existing
entry of the mapping or is the string `"Default"` (which need not exist in
the mapping — see the counterexample); a document without a `"contexts"`
key, like a missing or malformed file, loads as the default single-context
store; and each operation (switchTo to a name present in the mapping, add,
rename, delete) preserves the weakened invariant. -/
theorem C2_amended_active_pointer_invariant :
    (∀ f : PFile, storeActiveOk (load_all_data f)) ∧
    (∀ la : Option String, load_all_data (PFile.doc la none) =
      { all_contexts_data := default_data, current_context_name := "Default" }) ∧
    (∀ (s t : AppState) (name : String),
      dictMem s.all_contexts_data name = true →
      on_context_changed s name = some t → appActiveOk t) ∧
    (∀ (s t : AppState) (nm : Option String), appActiveOk s →
      add_context s nm = some t → appActiveOk t) ∧
    (∀ (s t : AppState) (nm : Option String), appActiveOk s →
      rename_context s nm = some t → appActiveOk t) ∧
    (∀ (s t : AppState) (c : Bool), appActiveOk s →
      delete_context s c = some t → appActiveOk t) := by
  refine ⟨?_, ?_, ?_, ?_, ?_, ?_⟩
  · intro f
    cases f with
    | missing => exact Or.inl (by decide)
    | malformed => exact Or.inl (by decide)
    | doc la cs =>
      simp only [load_all_data, storeActiveOk]
      by_cases h : dictMem (migrate (cs.getD default_data_doc)) (la.getD "Default") = true
      · rw [if_pos h]
        exact Or.inl h
      · rw [if_neg h]
        exact Or.inr rfl
  · intro la
    cases la with
    | none => rfl
    | some a =>
      by_cases ha : a = "Default"
      · subst ha; rfl
      · have hne : ¬ ("Default" : String) = a := fun h => ha h.symm
        simp [load_all_data, default_data_doc, default_data, migrate, dictMem,
          dictGet, hne]
  · intro s t name hmem h
    exact onChanged_activeOk s name t hmem h
  · intro s t nm hs h
    match nm with
    | none => cases h; exact hs
    | some name =>
      by_cases h0 : name = ""
      · simp only [add_context, h0, if_pos rfl] at h
        cases h; exact hs
      · by_cases h1 : dictMem s.all_contexts_data name = true
        · simp only [add_context, if_neg h0, h1, if_true] at h
          cases h; exact hs
        · simp only [add_context, if_neg h0, h1, Bool.false_eq_true, if_false] at h
          exact onChanged_activeOk _ name t (dictMem_dictSet_self _ _ _) h
  · intro s t nm hs h
    by_cases hd : s.current_context_name = "Default"
    · simp only [rename_context, hd, if_pos rfl] at h
      cases h; exact hs
    · match nm with
      | none =>
        simp only [rename_context, if_neg hd] at h
        cases h; exact hs
      | some name =>
        by_cases h0 : name = "" ∨ name = s.current_context_name
        · simp only [rename_context, if_neg hd, if_pos h0] at h
          cases h; exact hs
        · by_cases h1 : dictMem s.all_contexts_data name = true
          · simp only [rename_context, if_neg hd, if_neg h0, h1, if_true] at h
            cases h; exact hs
          · simp only [rename_context, if_neg hd, if_neg h0, h1,
              Bool.false_eq_true, if_false] at h
            cases hg : dictGet s.all_contexts_data s.current_context_name with
            | none => rw [hg] at h; cases h
            | some d =>
              rw [hg] at h
              cases h
              exact Or.inl (dictMem_dictSet_self _ _ _)
  · intro s t c hs h
    by_cases hd : s.current_context_name = "Default"
    · simp only [delete_context, hd, if_pos rfl] at h
      cases h; exact hs
    · cases c with
      | false =>
        simp only [delete_context, if_neg hd, Bool.false_eq_true, if_false] at h
        cases h; exact hs
      | true =>
        simp only [delete_context, if_neg hd, if_true] at h
        cases hg : dictGet s.all_contexts_data s.current_context_name with
        | none => rw [hg] at h; cases h
        | some d =>
          rw [hg] at h
          exact Or.inr (onChanged_default_current _ t h)

/-- Witness for the amended C2: the preserved invariant demonstrated on a
concrete `add` from the default store. -/
theorem C2_amended_active_pointer_invariant_witness :
    appActiveOk
      { all_contexts_data :=
          [("Default", ⟨some [0, 0, 0], some ""⟩), ("A", ⟨some [0, 0, 0], some ""⟩)],
        current_context_name := "A", display1 := 0, display2 := 0,
        display3 := 0, displayNote := "" } :=
  C2_amended_active_pointer_invariant.2.2.2.1
    { all_contexts_data := [("Default", ⟨some [0, 0, 0], some ""⟩)],
      current_context_name := "Default", display1 := 0, display2 := 0,
      display3 := 0, displayNote := "" }
    { all_contexts_data :=
        [("Default", ⟨some [0, 0, 0], some ""⟩), ("A", ⟨some [0, 0, 0], some ""⟩)],
      current_context_name := "A", display1 := 0, display2 := 0,
      display3 := 0, displayNote := "" }
    (some "A") (Or.inr rfl) rfl

/-- Claim C4: saving and then loading the produced document reproduces the
in-memory mapping and pointer exactly, provided the displayed values agree
with the active record (the store proper, which is what "the in-memory
store" denotes once the display draft has been reconciled); and the legacy
migration is idempotent — re-migrating the serialized form of an
already-migrated mapping is a no-op. -/
theorem C4_save_load_roundtrip :
    (∀ m : List (String × Record), migrate (serializeContexts m) = m) ∧
    (∀ (s : AppState) (r : Record),
      dictGet s.all_contexts_data s.current_context_name = some r →
      r.counters = some [s.display1, s.display2, s.display3] →
      r.note = some s.displayNote →
      load_all_data (save_all_data s).2 =
        { all_contexts_data := s.all_contexts_data,
          current_context_name := s.current_context_name }) := by
  constructor
  · exact migrate_serializeContexts
  · intro s r hget hc hn
    have hr : r = ⟨some [s.display1, s.display2, s.display3], some s.displayNote⟩ := by
      cases r
      simp only at hc hn
      rw [hc, hn]
    rw [hr] at hget
    have hflush : save_current_context_to_memory s = s := by
      rw [save_current_eq, dictSet_eq_of_get _ _ _ hget]
    have hmem : dictMem s.all_contexts_data s.current_context_name = true := by
      simp [dictMem, hget]
    simp only [save_all_data, hflush, load_all_data, Option.getD,
      migrate_serializeContexts, hmem, if_true]

/-- Witness for C4: the round trip on the default single-context store. -/
theorem C4_save_load_roundtrip_witness :
    load_all_data
      (save_all_data
        { all_contexts_data := [("Default", ⟨some [0, 0, 0], some ""⟩)],
          current_context_name := "Default", display1 := 0, display2 := 0,
          display3 := 0, displayNote := "" }).2 =
      { all_contexts_data := [("Default", ⟨some [0, 0, 0], some ""⟩)],
        current_context_name := "Default" } :=
  C4_save_load_roundtrip.2
    { all_contexts_data := [("Default", ⟨some [0, 0, 0], some ""⟩)],
      current_context_name := "Default", display1 := 0, display2 := 0,
      display3 := 0, displayNote := "" }
    ⟨some [0, 0, 0], some ""⟩ rfl rfl rfl

/-- Claim C7: loading when the save file is missing yields a store whose
mapping is exactly the single context `"Default"` with counters `[0,0,0]`
and note `""`, and whose active pointer is `"Default"`. -/
theorem C7_load_missing_default :
    load_all_data PFile.missing =
      { all_contexts_data := [("Default", ⟨some [0, 0, 0], some ""⟩)],
        current_context_name := "Default" } := rfl

/-- Claim C6: during load, every context entry holding a bare integer
sequence (legacy format) is upgraded to `{counters: <that sequence>,
note: ""}`; in particular loading `"X": [1,2,3]` yields
`"X": {counters: [1,2,3], note: ""}` in the store. -/
theorem C6_legacy_migration :
    (∀ (n : String) (xs : List Int) (rest : List (String × CtxVal)),
      migrate ((n, CtxVal.vlist xs) :: rest) =
        (n, ⟨some xs, some ""⟩) :: migrate rest) ∧
    (load_all_data (PFile.doc none (some [("X", CtxVal.vlist [1, 2, 3])]))).all_contexts_data =
      [("X", ⟨some [1, 2, 3], some ""⟩)] :=
  ⟨fun _ _ _ => rfl, rfl⟩

/-- Claim C3, counterexample: a present, parseable document whose
`"contexts"` object holds one well-formed entry `"A"` and one malformed
entry `"B"` does not load as the default single-context store — the
well-formed entry is kept and only the malformed one is dropped, contrary
to the claim that any structural error (including malformed individual
entries) substitutes the default document with no partial recovery. -/
theorem C3_partial_recovery_counterexample :
    (load_all_data (PFile.doc none
        (some [("A", CtxVal.vdict ⟨some [7, 8, 9], some "hi"⟩),
               ("B", CtxVal.vother)]))).all_contexts_data =
      [("A", ⟨some [7, 8, 9], some "hi"⟩)] ∧
    (load_all_data (PFile.doc none
        (some [("A", CtxVal.vdict ⟨some [7, 8, 9], some "hi"⟩),
               ("B", CtxVal.vother)]))).all_contexts_data ≠ default_data :=
  ⟨rfl, by decide⟩

/-- Claim C3, amended: a document that fails to parse (or whose top-level
structure is unreadable) is replaced wholesale by the default
single-context store; but inside a readable `"contexts"` object the
migration drops each malformed individual entry and keeps every
well-formed entry (dict entries as-is, list entries upgraded), i.e. there
IS partial recovery at the level of individual entries. -/
theorem C3_amended_error_handling :
    load_all_data PFile.malformed =
      { all_contexts_data := default_data, current_context_name := "Default" } ∧
    (∀ (n : String) (rest : List (String × CtxVal)),
      migrate ((n, CtxVal.vother) :: rest) = migrate rest) ∧
    (∀ (n : String) (r : Record) (rest : List (String × CtxVal)),
      migrate ((n, CtxVal.vdict r) :: rest) = (n, r) :: migrate rest) :=
  ⟨rfl, fun _ _ => rfl, fun _ _ _ => rfl⟩

/-- Claim C2, counterexample: loading the present, well-formed document
`{"contexts": {}}` yields a store in which no context named `"Default"`
exists, and whose active pointer `"Default"` therefore names no entry —
refuting the claimed post-load invariant. -/
theorem C2_default_missing_counterexample :
    dictMem (load_all_data (PFile.doc none (some []))).all_contexts_data
        "Default" = false ∧
    (load_all_data (PFile.doc none (some []))).current_context_name =
      "Default" ∧
    (load_all_data (PFile.doc none (some []))).all_contexts_data = [] :=
  ⟨rfl, rfl, rfl⟩

/-- Claim C10: `update_ui_for_context` indexes the first three elements of
the active record's counters list with no length check, so whenever that
list (after the `.get` fallbacks) has fewer than three elements the
display update fails with an index error (`none`); and such records are
reachable, since the legacy migration accepts integer sequences of any
length — loading `{"__last_active__": "X", "contexts": {"X": [1, 5]}}`
and rendering the loaded store fails. -/
theorem C10_short_counters_index_error :
    (∀ s : AppState, (displayedValues s).length < 3 →
      update_ui_for_context s = none) ∧
    load_all_data (PFile.doc (some "X") (some [("X", CtxVal.vlist [1, 5])])) =
      { all_contexts_data := [("X", ⟨some [1, 5], some ""⟩)],
        current_context_name := "X" } ∧
    update_ui_for_context
      (initialState
        (load_all_data (PFile.doc (some "X") (some [("X", CtxVal.vlist [1, 5])])))) =
      none :=
  ⟨fun s h => update_ui_eq_none s h, rfl, rfl⟩

/-- Witness for C10: the general part applied to the concrete loaded
state with the two-element counters list `[1, 5]`. -/
theorem C10_short_counters_index_error_witness :
    update_ui_for_context
      { all_contexts_data := [("X", ⟨some [1, 5], some ""⟩)],
        current_context_name := "X", display1 := 0, display2 := 0,
        display3 := 0, displayNote := "" } = none :=
  C10_short_counters_index_error.1
    { all_contexts_data := [("X", ⟨some [1, 5], some ""⟩)],
      current_context_name := "X", display1 := 0, display2 := 0,
      display3 := 0, displayNote := "" } (by decide)

/-- Claim C1: the spec says `delete()` (confirmed, active ≠ `"Default"`)
removes the active record and afterwards the deleted name is no longer a
key.  The code pops the record but then `on_context_changed` flushes the
still-displayed values back under the still-active deleted name before
switching, re-inserting the entry: deleting active context `"A"` from
`{Default, A}` leaves `"A"` a key of the mapping with its old values
(the active pointer does switch to `"Default"`). -/
theorem C1_delete_reinserts_deleted_context :
    delete_context
      { all_contexts_data :=
          [("Default", ⟨some [0, 0, 0], some ""⟩), ("A", ⟨some [1, 2, 3], some "x"⟩)],
        current_context_name := "A", display1 := 1, display2 := 2,
        display3 := 3, displayNote := "x" } true =
      some
        { all_contexts_data :=
            [("Default", ⟨some [0, 0, 0], some ""⟩), ("A", ⟨some [1, 2, 3], some "x"⟩)],
          current_context_name := "Default", display1 := 0, display2 := 0,
          display3 := 0, displayNote := "" } ∧
    dictMem
      [(("Default" : String), (⟨some [0, 0, 0], some ""⟩ : Record)),
       ("A", ⟨some [1, 2, 3], some "x"⟩)] "A" = true :=
  ⟨rfl, rfl⟩

theorem exists_cons_cons_cons {l : List Int} (h : 3 ≤ l.length) :
    ∃ a b c tl, l = a :: b :: c :: tl := by
  match l with
  | a :: b :: c :: tl => exact ⟨a, b, c, tl, rfl⟩
  | [] | [a] | [a, b] => simp at h

theorem switch_into (s1 : AppState) (name : String)
    (hne : name ≠ s1.current_context_name) (v1 v2 v3 : Int) (tl : List Int)
    (hv0 : ((dictGet s1.all_contexts_data name).getD
        ⟨some [0, 0, 0], some ""⟩).counters.getD [0, 0, 0] =
      v1 :: v2 :: v3 :: tl) :
    ∃ t, on_context_changed s1 name = some t ∧
      t.all_contexts_data = dictSet s1.all_contexts_data s1.current_context_name
        ⟨some [s1.display1, s1.display2, s1.display3], some s1.displayNote⟩ ∧
      t.current_context_name = name ∧ t.display1 = v1 ∧ t.display2 = v2 ∧
      t.display3 = v3 ∧
      t.displayNote = ((dictGet s1.all_contexts_data name).getD
        ⟨some [0, 0, 0], some ""⟩).note.getD "" := by
  rw [on_context_changed_ne _ _ hne, save_current_eq]
  have hd2 : dictGet (dictSet s1.all_contexts_data s1.current_context_name
      ⟨some [s1.display1, s1.display2, s1.display3], some s1.displayNote⟩) name =
      dictGet s1.all_contexts_data name :=
    dictGet_dictSet_ne _ _ _ _ (fun h => hne h.symm)
  have hv : displayedValues
      { s1 with all_contexts_data := dictSet s1.all_contexts_data s1.current_context_name ⟨some [s1.display1, s1.display2, s1.display3], some s1.displayNote⟩, current_context_name := name } =
      v1 :: v2 :: v3 :: tl := by
    simp only [displayedValues]
    rw [hd2]
    exact hv0
  have hn : displayedNote
      { s1 with all_contexts_data := dictSet s1.all_contexts_data s1.current_context_name ⟨some [s1.display1, s1.display2, s1.display3], some s1.displayNote⟩, current_context_name := name } =
      ((dictGet s1.all_contexts_data name).getD
        ⟨some [0, 0, 0], some ""⟩).note.getD "" := by
    simp only [displayedNote]
    rw [hd2]
  exact ⟨_, update_ui_eq_some _ v1 v2 v3 tl hv, rfl, rfl, rfl, rfl, rfl, hn⟩

/-- Claim C8: `add` with a cancelled dialog, an empty name, or an existing
name leaves the whole state unchanged; `add` with a fresh non-empty name
creates the record `{counters: [0,0,0], note: ""}` under that name and
makes it the active context. -/
theorem C8_add_context :
    ∀ s : AppState,
      add_context s none = some s ∧
      add_context s (some "") = some s ∧
      (∀ n : String, dictMem s.all_contexts_data n = true →
        add_context s (some n) = some s) ∧
      (∀ n : String, n ≠ "" → dictMem s.all_contexts_data n = false →
        ∃ t, add_context s (some n) = some t ∧
          dictGet t.all_contexts_data n = some ⟨some [0, 0, 0], some ""⟩ ∧
          t.current_context_name = n) := by
  intro s
  refine ⟨rfl, rfl, ?_, ?_⟩
  · intro n hn
    unfold add_context
    by_cases h0 : n = "" <;> simp [h0, hn]
  · intro n hne hmem
    have hfresh : add_context s (some n) =
        on_context_changed
          { s with all_contexts_data :=
              dictSet s.all_contexts_data n ⟨some [0, 0, 0], some ""⟩ } n := by
      simp [add_context, hne, hmem]
    by_cases hc : n = s.current_context_name
    · refine ⟨{ s with all_contexts_data := dictSet s.all_contexts_data n ⟨some [0, 0, 0], some ""⟩ }, ?_, dictGet_dictSet_self _ _ _, hc.symm⟩
      rw [hfresh, hc]
      exact on_context_changed_self _
    · have hcs : s.current_context_name ≠ n := fun h => hc h.symm
      have hget0 : ((dictGet (dictSet s.all_contexts_data n ⟨some [0, 0, 0], some ""⟩) n).getD ⟨some [0, 0, 0], some ""⟩).counters.getD [0, 0, 0] = 0 :: 0 :: 0 :: [] := by
        rw [dictGet_dictSet_self]
        rfl
      obtain ⟨t, he, hdata, hcur, _, _, _, _⟩ :=
        switch_into
          { s with all_contexts_data := dictSet s.all_contexts_data n ⟨some [0, 0, 0], some ""⟩ }
          n hc 0 0 0 [] hget0
      refine ⟨t, ?_, ?_, hcur⟩
      · rw [hfresh]
        exact he
      · rw [hdata]
        show dictGet (dictSet (dictSet s.all_contexts_data n ⟨some [0, 0, 0], some ""⟩) s.current_context_name _) n = some ⟨some [0, 0, 0], some ""⟩
        rw [dictGet_dictSet_ne _ _ _ _ hcs, dictGet_dictSet_self]

/-- Witness for C8: adding `"A"` (fresh) and `"Default"` (existing) to the
default store. -/
theorem C8_add_context_witness :
    add_context
      { all_contexts_data := [("Default", ⟨some [0, 0, 0], some ""⟩)],
        current_context_name := "Default", display1 := 0, display2 := 0,
        display3 := 0, displayNote := "" } (some "Default") =
      some
        { all_contexts_data := [("Default", ⟨some [0, 0, 0], some ""⟩)],
          current_context_name := "Default", display1 := 0, display2 := 0,
          display3 := 0, displayNote := "" } ∧
    ∃ t, add_context
        { all_contexts_data := [("Default", ⟨some [0, 0, 0], some ""⟩)],
          current_context_name := "Default", display1 := 0, display2 := 0,
          display3 := 0, displayNote := "" } (some "A") = some t ∧
      dictGet t.all_contexts_data "A" = some ⟨some [0, 0, 0], some ""⟩ ∧
      t.current_context_name = "A" :=
  ⟨(C8_add_context
      { all_contexts_data := [("Default", ⟨some [0, 0, 0], some ""⟩)],
        current_context_name := "Default", display1 := 0, display2 := 0,
        display3 := 0, displayNote := "" }).2.2.1 "Default" (by decide),
   (C8_add_context
      { all_contexts_data := [("Default", ⟨some [0, 0, 0], some ""⟩)],
        current_context_name := "Default", display1 := 0, display2 := 0,
        display3 := 0, displayNote := "" }).2.2.2 "A" (by decide) (by decide)⟩

/-- Claim C9: `rename` fails with the whole state unchanged when the
active context is `"Default"`, when the dialog is cancelled or returns an
empty or unchanged name, or when the new name already exists; otherwise
(in any state satisfying the maintained active-pointer invariant, with the
unique keys of a Python dict) it moves the active record under the new key,
removes the old key, and points the active pointer at the new name. -/
theorem C9_rename_context :
    ∀ s : AppState,
      (s.current_context_name = "Default" →
        ∀ nm : Option String, rename_context s nm = some s) ∧
      rename_context s none = some s ∧
      rename_context s (some "") = some s ∧
      rename_context s (some s.current_context_name) = some s ∧
      (∀ n : String, dictMem s.all_contexts_data n = true →
        rename_context s (some n) = some s) ∧
      (∀ n : String, appActiveOk s →
        (s.all_contexts_data.map Prod.fst).Nodup →
        s.current_context_name ≠ "Default" → n ≠ "" →
        n ≠ s.current_context_name →
        dictMem s.all_contexts_data n = false →
        ∃ d t, dictGet s.all_contexts_data s.current_context_name = some d ∧
          rename_context s (some n) = some t ∧
          dictGet t.all_contexts_data n = some d ∧
          dictMem t.all_contexts_data s.current_context_name = false ∧
          t.current_context_name = n) := by
  intro s
  by_cases hd : s.current_context_name = "Default"
  · refine ⟨fun _ nm => by simp [rename_context, hd], by simp [rename_context, hd],
      by simp [rename_context, hd], by simp [rename_context, hd],
      fun n _ => by simp [rename_context, hd], fun n _ _ h _ _ _ => absurd hd h⟩
  · refine ⟨fun h => absurd h hd, by simp [rename_context, hd], ?_, ?_, ?_, ?_⟩
    · simp [rename_context, hd]
    · simp [rename_context, hd]
    · intro n hn
      unfold rename_context
      by_cases h0 : n = "" ∨ n = s.current_context_name <;> simp [hd, h0, hn]
    · intro n hak hnd hdne hn0 hnc hnm
      have hmemc : dictMem s.all_contexts_data s.current_context_name = true := by
        rcases hak with h | h
        · exact h
        · exact absurd h hdne
      obtain ⟨d, hget⟩ : ∃ d,
          dictGet s.all_contexts_data s.current_context_name = some d := by
        cases hg : dictGet s.all_contexts_data s.current_context_name with
        | none => rw [dictMem, hg] at hmemc; cases hmemc
        | some d => exact ⟨d, rfl⟩
      refine ⟨d, { s with all_contexts_data := dictSet (dictPop s.all_contexts_data s.current_context_name) n d, current_context_name := n }, hget, ?_, ?_, ?_, rfl⟩
      · simp only [rename_context, if_neg hd]
        have h0 : ¬ (n = "" ∨ n = s.current_context_name) := by
          rintro (h | h)
          · exact hn0 h
          · exact hnc h
        rw [if_neg h0, hnm]
        simp only [Bool.false_eq_true, if_false]
        rw [hget]
      · exact dictGet_dictSet_self _ _ _
      · simp only [dictMem,
          dictGet_dictSet_ne _ s.current_context_name n d hnc,
          dictGet_dictPop_self s.all_contexts_data s.current_context_name hnd,
          Option.isSome_none]

/-- Witness for C9: renaming active context `"A"` to `"B"` in a two-context
store, and the `"Default"` failure case. -/
theorem C9_rename_context_witness :
    rename_context
      { all_contexts_data := [("Default", ⟨some [0, 0, 0], some ""⟩)],
        current_context_name := "Default", display1 := 0, display2 := 0,
        display3 := 0, displayNote := "" } (some "B") =
      some
        { all_contexts_data := [("Default", ⟨some [0, 0, 0], some ""⟩)],
          current_context_name := "Default", display1 := 0, display2 := 0,
          display3 := 0, displayNote := "" } ∧
    ∃ d t, dictGet
        [(("Default" : String), (⟨some [0, 0, 0], some ""⟩ : Record)),
         ("A", ⟨some [1, 2, 3], some "x"⟩)] "A" = some d ∧
      rename_context
        { all_contexts_data :=
            [("Default", ⟨some [0, 0, 0], some ""⟩), ("A", ⟨some [1, 2, 3], some "x"⟩)],
          current_context_name := "A", display1 := 1, display2 := 2,
          display3 := 3, displayNote := "x" } (some "B") = some t ∧
      dictGet t.all_contexts_data "B" = some d ∧
      dictMem t.all_contexts_data "A" = false ∧
      t.current_context_name = "B" :=
  ⟨(C9_rename_context
      { all_contexts_data := [("Default", ⟨some [0, 0, 0], some ""⟩)],
        current_context_name := "Default", display1 := 0, display2 := 0,
        display3 := 0, displayNote := "" }).1 rfl (some "B"),
   (C9_rename_context
      { all_contexts_data :=
          [("Default", ⟨some [0, 0, 0], some ""⟩), ("A", ⟨some [1, 2, 3], some "x"⟩)],
        current_context_name := "A", display1 := 1, display2 := 2,
        display3 := 3, displayNote := "x" }).2.2.2.2.2 "B"
     (Or.inl (by decide)) (by decide) (by decide) (by decide) (by decide)
     (by decide)⟩

/-- Claim C5: `switchTo` is a no-op when the selected name equals the
active pointer; and after setting the display to `[5,5,5]` / `"abc"` under
context A, switching to a different context B (whose stored counters are
long enough to render), then switching back to A, the display again shows
exactly `[5,5,5]` and `"abc"`. -/
theorem C5_switch_roundtrip :
    (∀ s : AppState, on_context_changed s s.current_context_name = some s) ∧
    (∀ (s : AppState) (B : String), s.current_context_name ≠ B →
      3 ≤ (((dictGet s.all_contexts_data B).getD
          ⟨some [0, 0, 0], some ""⟩).counters.getD [0, 0, 0]).length →
      ∃ t u,
        on_context_changed
          { s with display1 := 5, display2 := 5, display3 := 5,
                   displayNote := "abc" } B = some t ∧
        on_context_changed t s.current_context_name = some u ∧
        u.display1 = 5 ∧ u.display2 = 5 ∧ u.display3 = 5 ∧
        u.displayNote = "abc") := by
  constructor
  · exact on_context_changed_self
  · intro s B hAB hlen
    obtain ⟨b1, b2, b3, btl, hb⟩ := exists_cons_cons_cons hlen
    have hBA : B ≠ s.current_context_name := fun h => hAB h.symm
    obtain ⟨t, he1, hdata1, hcur1, _, _, _, _⟩ :=
      switch_into
        { s with display1 := 5, display2 := 5, display3 := 5, displayNote := "abc" }
        B hBA b1 b2 b3 btl hb
    have hne2 : s.current_context_name ≠ t.current_context_name := by
      rw [hcur1]; exact hAB
    have hv2 : ((dictGet t.all_contexts_data s.current_context_name).getD ⟨some [0, 0, 0], some ""⟩).counters.getD [0, 0, 0] = 5 :: 5 :: 5 :: [] := by
      simp only [hdata1]
      rw [dictGet_dictSet_self]
      rfl
    obtain ⟨u, he2, hdata2, hcur2, hu1, hu2, hu3, hnote2⟩ :=
      switch_into t s.current_context_name hne2 5 5 5 [] hv2
    refine ⟨t, u, he1, he2, hu1, hu2, hu3, ?_⟩
    rw [hnote2]
    simp only [hdata1]
    rw [dictGet_dictSet_self]
    rfl

/-- Witness for C5: the round trip between `"Default"` (display set to
`[5,5,5]` / `"abc"`) and `"B"`. -/
theorem C5_switch_roundtrip_witness :
    ∃ t u,
      on_context_changed
        { all_contexts_data :=
            [("Default", ⟨some [0, 0, 0], some ""⟩), ("B", ⟨some [9, 9, 9], some "bb"⟩)],
          current_context_name := "Default", display1 := 5, display2 := 5,
          display3 := 5, displayNote := "abc" } "B" = some t ∧
      on_context_changed t "Default" = some u ∧
      u.display1 = 5 ∧ u.display2 = 5 ∧ u.display3 = 5 ∧
      u.displayNote = "abc" :=
  C5_switch_roundtrip.2
    { all_contexts_data :=
        [("Default", ⟨some [0, 0, 0], some ""⟩), ("B", ⟨some [9, 9, 9], some "bb"⟩)],
      current_context_name := "Default", display1 := 0, display2 := 0,
      display3 := 0, displayNote := "" } "B" (by decide) (by decide)

end MultiCounter
